import Mathlib

/-!
Verification of the job-hunter extraction pipeline.

The repository couples a schema-driven, multi-strategy HTML extraction
engine (described in the specification) with support scripts under
`scripts/`: session consolidation (`consolidate_jobs.py`,
`consolidate_sessions.py`), deduplication (`deduplicate_jobs.py`),
filtering (`filter_jobs.py`), application tracking (`init_tracker.py`)
and an extraction runner (`run_extraction.py`).

This file gives a shallow embedding of the data model and operations and
proves the stated properties about them.  Definitions embedding code from
`scripts/` are translated from that code; components of the extraction
engine whose implementation is not part of the script set are modelled
from the specification and carry a doc comment saying so.
-/

namespace JobHunter

/-- Provenance tag of an extracted field value
(spec §3: source ∈ {structured, labeled, pattern, section, none}). -/
inductive Source where
  | structured
  | labeled
  | pattern
  | section
  | noSource
  deriving DecidableEq, Repr

/-- One extracted field: value, confidence 0–100, provenance, found flag
(spec §3, ExtractedField). -/
structure ExtractedField where
  value : String
  confidence : Nat
  source : Source
  found : Bool
  deriving DecidableEq, Repr

/-- The record produced for a field no strategy could resolve:
{found:false, confidence:0, source:"none"} (spec §4.3). -/
def notFoundField : ExtractedField :=
  { value := "", confidence := 0, source := Source.noSource, found := false }

/-- Modelled from the spec: outcome of the pattern strategy for one field —
the specialized extractors (§4.4) return a value together with a
type-specific confidence (salary 75, email 90/75/60/55, date 80/75,
plain-string regex 65).  The extractor internals operate on raw HTML and
are abstracted as this per-field outcome. -/
abbrev PatternOutcome := Option (String × Nat)

/-- Modelled from the spec (§4.3): the strategy cascade for a single field
that was not set by structured data.  The labeled-element strategy yields
an optional value at fixed confidence 85, the pattern strategy yields a
value with its own confidence, the section strategy yields an optional
value at fixed confidence 65.  Strategies are tried in this fixed order
and the first one whose confidence meets `minConf` is accepted; if none
qualify the field degrades to `notFoundField`.
The three stages below follow that order: `cascadeField` tries the
labeled-element strategy and falls through to `cascadePattern`, which
falls through to `cascadeSection`. -/
def cascadeSection (minConf : Nat) (sect : Option String) : ExtractedField :=
  match sect with
  | some v =>
      if minConf ≤ 65 then
        { value := v, confidence := 65, source := Source.section, found := true }
      else notFoundField
  | none => notFoundField

/-- Pattern stage of the cascade, falling through to the section stage
when it misses or falls short of `minConf`. -/
def cascadePattern (minConf : Nat) (patt : PatternOutcome)
    (sect : Option String) : ExtractedField :=
  match patt with
  | some (v, c) =>
      if minConf ≤ c then
        { value := v, confidence := c, source := Source.pattern, found := true }
      else cascadeSection minConf sect
  | none => cascadeSection minConf sect

def cascadeField (minConf : Nat) (labeled : Option String)
    (patt : PatternOutcome) (sect : Option String) : ExtractedField :=
  match labeled with
  | some v =>
      if minConf ≤ 85 then
        { value := v, confidence := 85, source := Source.labeled, found := true }
      else cascadePattern minConf patt sect
  | none => cascadePattern minConf patt sect

/-- Modelled from the spec (§4.2–§4.3): resolution of a single requested
field.  A value supplied by embedded structured data (JSON-LD JobPosting)
seeds the result at confidence 100 with source "structured"; only fields
not already set by structured data enter the cascade. -/
def resolveField (structured : Option String) (minConf : Nat)
    (labeled : Option String) (patt : PatternOutcome)
    (sect : Option String) : ExtractedField :=
  match structured with
  | some v =>
      { value := v, confidence := 100, source := Source.structured, found := true }
  | none => cascadeField minConf labeled patt sect

/-! ### Aggregator (spec §4.5) -/

/-- Modelled from the spec (§4.5): single left-to-right pass over the
per-field results accumulating the pair
(number of fields with found=true, sum of confidence over those fields). -/
def foundStats (fields : List ExtractedField) : Nat × Nat :=
  fields.foldl
    (fun acc f => if f.found then (acc.1 + 1, acc.2 + f.confidence) else acc) (0, 0)

/-- Modelled from the spec (§4.5): fieldsFound = count with found=true. -/
def fieldsFound (fields : List ExtractedField) : Nat := (foundStats fields).1

/-- Modelled from the spec (§4.5): averageConfidence = integer mean of
confidence over found fields only (0 if none). -/
def averageConfidence (fields : List ExtractedField) : Nat :=
  if (foundStats fields).1 = 0 then 0
  else (foundStats fields).2 / (foundStats fields).1

/-- Modelled from the spec (§4.5, §8): dataCompleteness = integer percent
fieldsFound/fieldsRequested, i.e. round(100×fieldsFound/fieldsRequested)
when fieldsRequested>0, else 0; fieldsRequested is the number of schema
fields, here the length of the per-field result list. -/
def dataCompleteness (fields : List ExtractedField) : ℤ :=
  if fields.length = 0 then 0
  else round ((100 * (fieldsFound fields) : ℚ) / fields.length)

/-! ### `calculate_completeness` (scripts/deduplicate_jobs.py) -/

/-- A JSON-ish field value as stored in a consolidated job dict; only the
top-level type and emptiness matter to `calculate_completeness`. -/
inductive JVal where
  | str (s : String)
  | obj (kvs : List (String × String))
  | arr (xs : List String)
  | num (n : Int)
  | boolean (b : Bool)
  deriving DecidableEq, Repr

/-- `calculate_completeness`'s per-field test: the key is present, its
value is truthy, and it is a non-empty string / non-empty dict /
non-empty list (numbers and booleans match none of the isinstance arms). -/
def fieldFilled : Option JVal → Bool
  | some (JVal.str s) => s.length > 0
  | some (JVal.obj kvs) => !kvs.isEmpty
  | some (JVal.arr xs) => xs.length > 0
  | _ => false

/-- A consolidated job restricted to the eight `important_fields` checked
by `calculate_completeness` (absent key = `none`). -/
structure JobRecord where
  title : Option JVal
  company : Option JVal
  location : Option JVal
  description : Option JVal
  requirements : Option JVal
  salary : Option JVal
  contactEmail : Option JVal
  benefits : Option JVal
  deriving DecidableEq, Repr

/-- The eight `important_fields` values of a job, in source order. -/
def importantFieldValues (j : JobRecord) : List (Option JVal) :=
  [j.title, j.company, j.location, j.description,
   j.requirements, j.salary, j.contactEmail, j.benefits]

/-- Number of filled important fields (the `filled` counter of
`calculate_completeness`). -/
def filledCount (j : JobRecord) : Nat :=
  (importantFieldValues j).countP fieldFilled

/-- `calculate_completeness` from scripts/deduplicate_jobs.py:
`(filled / len(important_fields)) * 100`, an exact rational here in place
of the Python float. -/
def calculate_completeness (j : JobRecord) : ℚ :=
  ((filledCount j : ℚ) / 8) * 100

/-! ### Email pattern extractor (spec §4.4) -/

/-- `pat` is a prefix of `l`, character by character. -/
def charsStartWith : List Char → List Char → Bool
  | _, [] => true
  | [], _ :: _ => false
  | c :: cs, d :: ds => c = d && charsStartWith cs ds

/-- `sub` occurs somewhere inside `l`, character by character. -/
def charsContain : List Char → List Char → Bool
  | [], sub => sub.isEmpty
  | c :: cs, sub => charsStartWith (c :: cs) sub || charsContain cs sub

/-- `sub` occurs as a substring of `s` (Python's `sub in s`). -/
def hasSubstr (s sub : String) : Bool := charsContain s.data sub.data

/-- `s` starts with `p` (Python's `s.startswith(p)`). -/
def strStartsWith (s p : String) : Bool := charsStartWith s.data p.data

/-- High-priority email prefixes (spec §4.4). -/
def highPriorityStarts : List String :=
  ["jobs@", "careers@", "recruiting@", "hr@", "hiring@"]

/-- Low-priority email prefixes (spec §4.4). -/
def lowPriorityStarts : List String :=
  ["info@", "contact@", "noreply@"]

/-- The email starts with a high-priority local part. -/
def isHighPriority (e : String) : Bool :=
  highPriorityStarts.any (fun p => strStartsWith e p)

/-- The email starts with a low-priority local part. -/
def isLowPriority (e : String) : Bool :=
  lowPriorityStarts.any (fun p => strStartsWith e p)

/-- The email falls in the medium group: it has an "@" and belongs to
neither the high nor the low group. -/
def isMediumPriority (e : String) : Bool :=
  hasSubstr e "@" && !isHighPriority e && !isLowPriority e

/-- Modelled from the spec (§4.4, Email): given the surviving candidates,
return the first member of the highest present priority group at
confidence 90/75/60, else the first email found at confidence 55. -/
def pickEmail (valid : List String) : Option (String × Nat) :=
  match valid.find? isHighPriority with
  | some e => some (e, 90)
  | none =>
    match valid.find? isMediumPriority with
    | some e => some (e, 75)
    | none =>
      match valid.find? isLowPriority with
      | some e => some (e, 60)
      | none =>
        match valid.head? with
        | some e => some (e, 55)
        | none => none

/-- Modelled from the spec (§4.4, Email): the extractor collects all
email-like substrings of the document (that regex harvest is abstracted
as the input list), excludes those containing "noreply", and classifies
the rest by priority group. -/
def extract_email (candidates : List String) : Option (String × Nat) :=
  pickEmail (candidates.filter (fun e => !(hasSubstr e "noreply")))

/-! ### Schema/database loading (spec §4.1 and scripts/filter_jobs.py) -/

/-- The structured failure raised by the schema loader (spec §4.1, §7). -/
structure SchemaError where
  msg : String
  deriving DecidableEq, Repr

/-- Modelled from the spec (§4.1, §7): the schema loader of the extraction
engine is not among the scripts; `load(path)` fails with a `SchemaError`
naming the violated precondition exactly when the file is missing
(`file = none`) or its contents are not valid JSON (`parse` fails),
and returns no partial payload in that case. -/
def load {α : Type} (parse : String → Option α) (file : Option String) :
    Except SchemaError α :=
  match file with
  | none => Except.error ⟨"schema file is missing"⟩
  | some txt =>
    match parse txt with
    | none => Except.error ⟨"schema file is not valid JSON"⟩
    | some a => Except.ok a

/-- `JobFilter.load_database` from scripts/filter_jobs.py on a freshly
constructed filter (`self.jobs = []`): returns the success flag and the
resulting `self.jobs`.  A missing file (FileNotFoundError) or invalid
JSON (JSONDecodeError) yields `false` and leaves the jobs list empty. -/
def load_database {α : Type} (parse : String → Option (List α))
    (file : Option String) : Bool × List α :=
  match file with
  | none => (false, [])
  | some txt =>
    match parse txt with
    | none => (false, [])
    | some js => (true, js)

/-! ### Extraction runner records (scripts/run_extraction.py) -/

/-- A queue entry from `url_queue.json` as read by
`create_simulated_extraction`. -/
structure UrlJob where
  position : Nat
  url : String
  title : Option String
  company : Option String
  deriving DecidableEq, Repr

/-- One entry of `failed_data["failed_urls"]` built by
`create_simulated_extraction`. -/
structure FailedUrlEntry where
  position : Nat
  url : String
  title : Option String
  company : Option String
  error : String
  failed_at : String
  deriving DecidableEq, Repr

/-- The record `create_simulated_extraction` appends per queued URL; the
wall clock (`datetime.utcnow().isoformat()`) is the `now` parameter. -/
def mkFailedEntry (now : String) (job : UrlJob) : FailedUrlEntry :=
  { position := job.position
    url := job.url
    title := job.title
    company := job.company
    error := "404 Not Found - Sample URL"
    failed_at := now ++ "Z" }

/-- The `failed_urls` list built by `create_simulated_extraction` over the
whole queue at wall-clock reading `now`. -/
def buildFailedUrls (urls : List UrlJob) (now : String) : List FailedUrlEntry :=
  urls.map (mkFailedEntry now)

/-! ### `detect_duplicates` (scripts/consolidate_jobs.py) -/

/-- Business suffixes stripped by `normalize_string`. -/
def businessSuffixes : List String :=
  ["gmbh", "ag", "ltd", "inc", "llc", "corp", "corporation"]

/-- `normalize_string` from scripts/consolidate_jobs.py: lowercase and
strip, drop the diversity markers "(m/w/d)" and "(w/m/d)", remove
business-suffix words, and collapse whitespace (the word-boundary regex
is rendered at whitespace-token level). -/
def normalize_string (s : String) : String :=
  let s := s.toLower.trim
  let s := (s.replace "(m/w/d)" "").replace "(w/m/d)" ""
  let words := (s.split Char.isWhitespace).filter
    (fun w => w ≠ "" && !(businessSuffixes.contains w))
  String.intercalate " " words

/-- A consolidated job as seen by `detect_duplicates`
(scripts/consolidate_jobs.py); a `none` field covers both an absent key
and a JSON null. -/
structure CJob where
  url : Option String
  company : Option String
  title : Option String
  location : Option String
  deriving DecidableEq, Repr

/-- `job.get("url", "")` with falsy values collapsing to the empty
string. -/
def urlOf (j : CJob) : String := j.url.getD ""

/-- The composite key `f"{company}|{title}|{location}"` over normalized
fields. -/
def fuzzyKeyOf (j : CJob) : String :=
  normalize_string (j.company.getD "") ++ "|" ++
    normalize_string (j.title.getD "") ++ "|" ++
    normalize_string (j.location.getD "")

/-- The reason recorded on a detected duplicate. -/
inductive DupReason where
  | exact_url
  | fuzzy_match
  deriving DecidableEq, Repr

/-- A job routed to the duplicate list, together with the metadata keys
`detect_duplicates` adds to the copied dict. -/
structure DupJob where
  job : CJob
  duplicate_reason : DupReason
  fuzzy_key : Option String
  deriving DecidableEq, Repr

/-- `detect_duplicates` from scripts/consolidate_jobs.py, with the two
`seen` sets made explicit: each job either matches a previously seen URL,
matches a previously seen non-"||" fuzzy key, or is unique (and then
registers its URL and key). -/
def detect_duplicates :
    List CJob → List String → List String → List CJob × List DupJob
  | [], _, _ => ([], [])
  | j :: rest, seenUrls, seenFuzzy =>
    if urlOf j ≠ "" && seenUrls.contains (urlOf j) then
      ((detect_duplicates rest seenUrls seenFuzzy).1,
        ⟨j, DupReason.exact_url, none⟩ ::
          (detect_duplicates rest seenUrls seenFuzzy).2)
    else if seenFuzzy.contains (fuzzyKeyOf j) && fuzzyKeyOf j ≠ "||" then
      ((detect_duplicates rest seenUrls seenFuzzy).1,
        ⟨j, DupReason.fuzzy_match, some (fuzzyKeyOf j)⟩ ::
          (detect_duplicates rest seenUrls seenFuzzy).2)
    else
      (j :: (detect_duplicates rest
              (if urlOf j ≠ "" then urlOf j :: seenUrls else seenUrls)
              (if fuzzyKeyOf j ≠ "||" then fuzzyKeyOf j :: seenFuzzy
               else seenFuzzy)).1,
        (detect_duplicates rest
          (if urlOf j ≠ "" then urlOf j :: seenUrls else seenUrls)
          (if fuzzyKeyOf j ≠ "||" then fuzzyKeyOf j :: seenFuzzy
           else seenFuzzy)).2)

/-! ### `ApplicationTracker` (scripts/init_tracker.py) -/

/-- One tracked application (the keyword arguments of
`add_application`; extra `**kwargs` are not modelled). -/
structure Application where
  job_id : String
  company : String
  title : String
  status : String
  directory : String
  created_at : String
  deriving DecidableEq, Repr

/-- The tracker state restricted to the fields `add_application` and
`_update_counters` touch. -/
structure TrackerData where
  applications : List Application
  successful : Nat
  failed : Nat
  in_progress : Nat
  deriving DecidableEq, Repr

/-- `_update_counters` from scripts/init_tracker.py:
`sum(1 for app in applications if app.get("status") == ...)` for each of
the three counters. -/
def updateCounters (t : TrackerData) : TrackerData :=
  { t with
    successful :=
      (t.applications.map
        (fun a => if a.status = "completed" then 1 else 0)).sum
    failed :=
      (t.applications.map
        (fun a => if a.status = "failed" then 1 else 0)).sum
    in_progress :=
      (t.applications.map
        (fun a => if a.status = "in_progress" then 1 else 0)).sum }

/-- `add_application` from scripts/init_tracker.py: drop any existing
entry with the same `job_id`, append the new entry, and recompute the
counters (`created_at` stands for `datetime.now().isoformat()`). -/
def add_application (t : TrackerData) (job_id company title status
    directory created_at : String) : TrackerData :=
  updateCounters
    { t with applications :=
        t.applications.filter (fun app => app.job_id ≠ job_id) ++
          [⟨job_id, company, title, status, directory, created_at⟩] }

/-! ### `filter_by_posted_date` (scripts/filter_jobs.py) -/

/-- The `postedDate` entry of `job["raw"]["job"]`: absent keys default to
the empty dict, a present value is either a dict (whose "value" defaults
to "") or a bare value rendered with `str`. -/
inductive PostedDate where
  | missing
  | asDict (value : Option String)
  | asStr (s : String)
  deriving DecidableEq, Repr

/-- The `date_str` computed by `filter_by_posted_date`. -/
def dateStrOf : PostedDate → String
  | PostedDate.missing => ""
  | PostedDate.asDict v => v.getD ""
  | PostedDate.asStr s => s

/-- The nested `raw.job` payload as far as the date filter reads it. -/
structure RawJob where
  postedDate : PostedDate
  deriving DecidableEq, Repr

/-- A master-database job as read by `filter_by_posted_date`; `raw = none`
covers a missing `raw`/`job` key (KeyError/TypeError, caught). -/
structure FilterJob where
  raw : Option RawJob
  deriving DecidableEq, Repr

/-- Gregorian leap-year test. -/
def isLeapYear (y : Nat) : Bool :=
  (y % 4 = 0 && y % 100 ≠ 0) || y % 400 = 0

/-- Days in month `m` of year `y` (1-based months). -/
def daysInMonth (y m : Nat) : Nat :=
  if m = 2 then (if isLeapYear y then 29 else 28)
  else if m = 4 ∨ m = 6 ∨ m = 9 ∨ m = 11 then 30
  else 31

/-- Days in the months of year `y` strictly before month `m`. -/
def daysBeforeMonth (y m : Nat) : Nat :=
  ((List.range (m - 1)).map (fun k => daysInMonth y (k + 1))).sum

/-- Proleptic Gregorian ordinal of a date (as `datetime.date.toordinal`):
day 1 is 0001-01-01. -/
def dateOrdinal (y m d : Nat) : Nat :=
  365 * (y - 1) + (y - 1) / 4 - (y - 1) / 100 + (y - 1) / 400 +
    daysBeforeMonth y m + d

/-- `datetime.fromisoformat` on the date part: accepts exactly
`YYYY-MM-DD` with a positive year, a month in 1..12 and a valid day of
month; anything else raises ValueError (modelled as `none`). -/
def parseIsoDate (s : String) : Option (Nat × Nat × Nat) :=
  match s.splitOn "-" with
  | [ys, ms, ds] =>
    if ys.length = 4 ∧ ms.length = 2 ∧ ds.length = 2 then
      match ys.toNat?, ms.toNat?, ds.toNat? with
      | some y, some m, some d =>
        if 1 ≤ y ∧ 1 ≤ m ∧ m ≤ 12 ∧ 1 ≤ d ∧ d ≤ daysInMonth y m then
          some (y, m, d)
        else none
      | _, _, _ => none
    else none
  | _ => none

/-- `date_str.split('T')[0]`. -/
def datePartOf (s : String) : String := (s.splitOn "T").headD ""

/-- `JobFilter.filter_by_posted_date` from scripts/filter_jobs.py at
wall-clock reading `now` (a timestamp measured in days, so that
`cutoff = now - days` and a parsed date sits at its midnight ordinal):
keep the job unless its posted date parses and is older than the
cutoff. -/
def filter_by_posted_date (job : FilterJob) (days : Nat) (now : ℚ) : Bool :=
  match job.raw with
  | none => true
  | some rj =>
    if dateStrOf rj.postedDate = "" then true
    else
      match parseIsoDate (datePartOf (dateStrOf rj.postedDate)) with
      | none => true
      | some (y, m, d) => decide ((dateOrdinal y m d : ℚ) ≥ now - days)

/-! ## Theorems -/

/-- The cascade skips the labeled stage when it produced nothing or its
fixed confidence 85 misses the field's minimum. -/
theorem cascadeField_skip_labeled {minConf : Nat} {labeled : Option String}
    {patt : PatternOutcome} {sect : Option String}
    (h : labeled = none ∨ 85 < minConf) :
    cascadeField minConf labeled patt sect =
      cascadePattern minConf patt sect := by
  rcases h with h | h
  · simp [h, cascadeField]
  · cases labeled with
    | none => simp [cascadeField]
    | some v => simp [cascadeField, Nat.not_le.mpr h]

/-- The cascade skips the pattern stage when it produced nothing or its
confidence misses the field's minimum. -/
theorem cascadePattern_skip {minConf : Nat} {patt : PatternOutcome}
    {sect : Option String}
    (h : patt = none ∨ ∃ v c, patt = some (v, c) ∧ c < minConf) :
    cascadePattern minConf patt sect =
      cascadeSection minConf sect := by
  rcases h with h | ⟨v, c, h, hc⟩
  · simp [h, cascadePattern]
  · simp [h, cascadePattern, Nat.not_le.mpr hc]

/-- The cascade skips the section stage when it produced nothing or its
fixed confidence 65 misses the field's minimum. -/
theorem cascadeSection_skip {minConf : Nat} {sect : Option String}
    (h : sect = none ∨ 65 < minConf) :
    cascadeSection minConf sect = notFoundField := by
  rcases h with h | h
  · simp [h, cascadeSection]
  · cases sect with
    | none => simp [cascadeSection]
    | some v => simp [cascadeSection, Nat.not_le.mpr h]

/-- C1: a field whose value is supplied by embedded structured data
(JSON-LD JobPosting) is returned with confidence=100 and
source="structured", and no later cascade strategy replaces or modifies
that value — whatever the labeled/pattern/section strategies would have
returned for the field. -/
theorem structured_data_precedence (minConf : Nat) (labeled : Option String)
    (patt : PatternOutcome) (sect : Option String) (v : String) :
    resolveField (some v) minConf labeled patt sect =
      { value := v, confidence := 100, source := Source.structured,
        found := true } := rfl

/-- C2: for a field not set by structured data, the cascade tries
labeled-element, then pattern, then section in that fixed order and
returns the result of the first strategy whose confidence meets the
field's min_confidence — the earlier strategy wins no matter what the
later strategies hold — and when no strategy qualifies the field is
recorded as {found:false, confidence:0, source:"none"}. -/
theorem cascade_fixed_order (minConf : Nat) (labeled : Option String)
    (patt : PatternOutcome) (sect : Option String) :
    (∀ v, labeled = some v → minConf ≤ 85 →
      resolveField none minConf labeled patt sect =
        { value := v, confidence := 85, source := Source.labeled,
          found := true }) ∧
    ((labeled = none ∨ 85 < minConf) →
      ∀ v c, patt = some (v, c) → minConf ≤ c →
        resolveField none minConf labeled patt sect =
          { value := v, confidence := c, source := Source.pattern,
            found := true }) ∧
    ((labeled = none ∨ 85 < minConf) →
      (patt = none ∨ ∃ v c, patt = some (v, c) ∧ c < minConf) →
      ∀ v, sect = some v → minConf ≤ 65 →
        resolveField none minConf labeled patt sect =
          { value := v, confidence := 65, source := Source.section,
            found := true }) ∧
    ((labeled = none ∨ 85 < minConf) →
      (patt = none ∨ ∃ v c, patt = some (v, c) ∧ c < minConf) →
      (sect = none ∨ 65 < minConf) →
      resolveField none minConf labeled patt sect = notFoundField) := by
  refine ⟨?_, ?_, ?_, ?_⟩
  · intro v hv hc
    subst hv
    simp [resolveField, cascadeField, hc]
  · intro hl v c hp hc
    show cascadeField minConf labeled patt sect = _
    rw [cascadeField_skip_labeled hl]
    simp [hp, cascadePattern, hc]
  · intro hl hp v hv hc
    show cascadeField minConf labeled patt sect = _
    rw [cascadeField_skip_labeled hl, cascadePattern_skip hp]
    simp [hv, cascadeSection, hc]
  · intro hl hp hs
    show cascadeField minConf labeled patt sect = _
    rw [cascadeField_skip_labeled hl, cascadePattern_skip hp,
      cascadeSection_skip hs]

/-- Witness for C2: with min_confidence 50, a labeled hit at confidence 85
beats a pattern hit at confidence 100. -/
theorem cascade_fixed_order_witness :
    resolveField none 50 (some "lv") (some ("pv", 100)) none =
      { value := "lv", confidence := 85, source := Source.labeled,
        found := true } :=
  (cascade_fixed_order 50 (some "lv") (some ("pv", 100)) none).1 "lv" rfl
    (by decide)

/-- A successful pick comes from the candidate list handed to
`pickEmail`. -/
theorem pickEmail_mem {l : List String} {e : String} {c : Nat}
    (h : pickEmail l = some (e, c)) : e ∈ l := by
  unfold pickEmail at h
  cases h1 : l.find? isHighPriority with
  | some e1 =>
    rw [h1] at h
    cases h
    exact List.mem_of_find?_eq_some h1
  | none =>
    rw [h1] at h
    cases h2 : l.find? isMediumPriority with
    | some e2 =>
      rw [h2] at h
      cases h
      exact List.mem_of_find?_eq_some h2
    | none =>
      rw [h2] at h
      cases h3 : l.find? isLowPriority with
      | some e3 =>
        rw [h3] at h
        cases h
        exact List.mem_of_find?_eq_some h3
      | none =>
        rw [h3] at h
        cases h4 : l.head? with
        | some e4 =>
          rw [h4] at h
          cases h
          rcases List.head?_eq_some_iff.mp h4 with ⟨ys, rfl⟩
          exact List.mem_cons_self _ _
        | none => rw [h4] at h; cases h

/-- C5: an input whose email-like substrings all contain "noreply" yields
found=false, and more generally the extractor never returns a noreply
address — the exclusion is absolute, including for the confidence-55
fallback. -/
theorem noreply_never_selected (candidates : List String) :
    ((∀ e ∈ candidates, hasSubstr e "noreply" = true) →
      extract_email candidates = none) ∧
    (∀ e c, extract_email candidates = some (e, c) →
      hasSubstr e "noreply" = false) := by
  constructor
  · intro h
    have hnil : candidates.filter (fun e => !(hasSubstr e "noreply")) = [] := by
      rw [List.filter_eq_nil_iff]
      intro e he
      simp [h e he]
    simp [extract_email, hnil, pickEmail]
  · intro e c h
    have h' : pickEmail
        (candidates.filter (fun e => !(hasSubstr e "noreply"))) =
          some (e, c) := h
    have hm := pickEmail_mem h'
    rw [List.mem_filter] at hm
    simpa using hm.2

/-- Witness for C5: the extractor returns found=false on the input whose
only email is "noreply@x.com". -/
theorem noreply_never_selected_witness :
    extract_email ["noreply@x.com"] = none :=
  (noreply_never_selected ["noreply@x.com"]).1 (by decide)

/-- C6: loading the schema fails with a SchemaError exactly when the file
is missing or holds invalid JSON, with no partial payload; and
`JobFilter.load_database` returns False (instead of raising) on
FileNotFoundError or JSONDecodeError, leaving `self.jobs` empty. -/
theorem schema_load_failure {σ α : Type} (parseS : String → Option σ)
    (fileS : Option String) (parseD : String → Option (List α))
    (fileD : Option String) :
    ((∃ err, load parseS fileS = Except.error err) ↔
      fileS = none ∨ ∃ txt, fileS = some txt ∧ parseS txt = none) ∧
    ((load_database parseD fileD).1 = false ↔
      fileD = none ∨ ∃ txt, fileD = some txt ∧ parseD txt = none) ∧
    ((load_database parseD fileD).1 = false →
      (load_database parseD fileD).2 = []) := by
  refine ⟨?_, ?_, ?_⟩
  · cases fileS with
    | none => simp [load]
    | some txt =>
      cases hp : parseS txt with
      | none => simp [load, hp]
      | some a => simp [load, hp]
  · cases fileD with
    | none => simp [load_database]
    | some txt =>
      cases hp : parseD txt with
      | none => simp [load_database, hp]
      | some js => simp [load_database, hp]
  · cases fileD with
    | none => intro _; simp [load_database]
    | some txt =>
      cases hp : parseD txt with
      | none => intro _; simp [load_database, hp]
      | some js => intro hfalse; simp [load_database, hp] at hfalse

/-- Witness for C6: on invalid JSON the loader reports failure and the
jobs list stays empty. -/
theorem schema_load_failure_witness :
    (load_database (fun _ : String => (none : Option (List Nat)))
        (some "notjson")).2 = [] :=
  (schema_load_failure (fun _ : String => (none : Option Nat)) none
      (fun _ : String => (none : Option (List Nat))) (some "notjson")).2.2 rfl

/-- Appending the trailing "Z" of the timestamp is injective. -/
theorem string_append_z_inj {a b : String} (h : a ++ "Z" = b ++ "Z") :
    a = b := by
  have hd : a.data ++ "Z".data = b.data ++ "Z".data := by
    simpa [String.data_append] using congrArg String.data h
  have hdata : a.data = b.data := List.append_inj_left' hd rfl
  cases a
  cases b
  exact congrArg String.mk hdata

/-- C7: with the wall clock injected and held constant, two runs on
identical queue input produce identical failed-URL records; and because
`create_simulated_extraction` stamps the clock reading into every record,
runs at different clock readings differ. -/
theorem frozen_time_idempotence :
    (∀ (urls₁ urls₂ : List UrlJob) (now₁ now₂ : String),
      urls₁ = urls₂ → now₁ = now₂ →
      buildFailedUrls urls₁ now₁ = buildFailedUrls urls₂ now₂) ∧
    (∀ (job : UrlJob) (now₁ now₂ : String), now₁ ≠ now₂ →
      buildFailedUrls [job] now₁ ≠ buildFailedUrls [job] now₂) := by
  constructor
  · intro u1 u2 n1 n2 hu hn
    rw [hu, hn]
  · intro job n1 n2 hne h
    apply hne
    have hentry : mkFailedEntry n1 job = mkFailedEntry n2 job := by
      simpa [buildFailedUrls] using h
    exact string_append_z_inj (congrArg FailedUrlEntry.failed_at hentry)

/-- Witness for C7: a frozen clock reproduces the output and two distinct
clock readings do not. -/
theorem frozen_time_idempotence_witness :
    buildFailedUrls [⟨1, "u", none, none⟩] "2025-11-20T23:52:42" =
        buildFailedUrls [⟨1, "u", none, none⟩] "2025-11-20T23:52:42" ∧
      buildFailedUrls [⟨1, "u", none, none⟩] "2025-11-20T23:52:42" ≠
        buildFailedUrls [⟨1, "u", none, none⟩] "2025-11-20T23:52:43" :=
  ⟨frozen_time_idempotence.1 [⟨1, "u", none, none⟩] [⟨1, "u", none, none⟩]
      "2025-11-20T23:52:42" "2025-11-20T23:52:42" rfl rfl,
    frozen_time_idempotence.2 ⟨1, "u", none, none⟩
      "2025-11-20T23:52:42" "2025-11-20T23:52:43" (by decide)⟩

/-- The aggregator's single pass, run from any accumulator, counts the
found fields and sums their confidences. -/
theorem foundStats_go (l : List ExtractedField) (a b : Nat) :
    l.foldl (fun acc f =>
        if f.found then (acc.1 + 1, acc.2 + f.confidence) else acc) (a, b) =
      (a + (l.filter (fun f => f.found)).length,
        b + ((l.filter (fun f => f.found)).map (fun f => f.confidence)).sum) := by
  induction l generalizing a b with
  | nil => simp
  | cons f t ih =>
    by_cases h : f.found
    · simp [h, ih, List.filter_cons, Prod.ext_iff]
      omega
    · simp [h, ih, List.filter_cons]

/-- `foundStats` computes the found-field count and confidence sum. -/
theorem foundStats_eq (fields : List ExtractedField) :
    foundStats fields =
      ((fields.filter (fun f => f.found)).length,
        ((fields.filter (fun f => f.found)).map
          (fun f => f.confidence)).sum) := by
  simpa [foundStats] using foundStats_go fields 0 0

/-- `fieldsFound` is the number of fields with found=true. -/
theorem fieldsFound_eq (fields : List ExtractedField) :
    fieldsFound fields = (fields.filter (fun f => f.found)).length := by
  simp [fieldsFound, foundStats_eq]

/-- C4: averageConfidence is the integer mean of the confidence values
over exactly the fields with found=true, and 0 when no field is found. -/
theorem averageConfidence_integer_mean (fields : List ExtractedField) :
    averageConfidence fields =
      if (fields.filter (fun f => f.found)).length = 0 then 0
      else ((fields.filter (fun f => f.found)).map
          (fun f => f.confidence)).sum /
        (fields.filter (fun f => f.found)).length := by
  simp [averageConfidence, foundStats_eq]

/-- C3: dataCompleteness always lies in [0,100] and equals
round(100×fieldsFound/fieldsRequested) when fieldsRequested>0, else 0;
and `calculate_completeness` always returns a value in [0,100] equal to
100×(number of the 8 important fields that are non-empty)/8. -/
theorem completeness_in_range (fields : List ExtractedField)
    (j : JobRecord) :
    (0 ≤ dataCompleteness fields ∧ dataCompleteness fields ≤ 100) ∧
    (fields.length ≠ 0 →
      dataCompleteness fields =
        round ((100 * ((fields.filter (fun f => f.found)).length : ℚ)) /
          (fields.length : ℚ))) ∧
    (fields.length = 0 → dataCompleteness fields = 0) ∧
    (0 ≤ calculate_completeness j ∧ calculate_completeness j ≤ 100 ∧
      calculate_completeness j = 100 * (filledCount j : ℚ) / 8) := by
  have hcc : calculate_completeness j = 100 * (filledCount j : ℚ) / 8 := by
    rw [calculate_completeness]
    ring
  have hf8 : (filledCount j : ℚ) ≤ 8 := by
    have : filledCount j ≤ 8 := by
      have := List.countP_le_length (p := fieldFilled)
        (l := importantFieldValues j)
      simpa [importantFieldValues, filledCount] using this
    exact_mod_cast this
  have hf0 : (0 : ℚ) ≤ (filledCount j : ℚ) := by positivity
  refine ⟨?_, ?_, ?_, ?_, ?_, hcc⟩
  · by_cases h0 : fields.length = 0
    · simp [dataCompleteness, h0]
    · have hn : (0 : ℚ) < fields.length := by
        exact_mod_cast Nat.pos_of_ne_zero h0
      have hff : (fieldsFound fields : ℚ) ≤ (fields.length : ℚ) := by
        have h1 : fieldsFound fields ≤ fields.length := by
          rw [fieldsFound_eq]
          exact List.length_filter_le _ _
        exact_mod_cast h1
      have hffpos : (0 : ℚ) ≤ (fieldsFound fields : ℚ) := by positivity
      have hx0 : (0 : ℚ) ≤ 100 * (fieldsFound fields : ℚ) / fields.length := by
        positivity
      have hx100 : 100 * (fieldsFound fields : ℚ) / fields.length ≤ 100 := by
        rw [div_le_iff₀ hn]
        nlinarith
      rw [dataCompleteness, if_neg h0, round_eq]
      constructor
      · exact Int.le_floor.mpr (by push_cast; linarith)
      · have : (⌊100 * (fieldsFound fields : ℚ) / fields.length + 1 / 2⌋ :
            ℤ) < 101 := Int.floor_lt.mpr (by push_cast; linarith)
        omega
  · intro h0
    rw [dataCompleteness, if_neg h0, fieldsFound_eq]
  · intro h0
    simp [dataCompleteness, h0]
  · rw [hcc]
    positivity
  · rw [hcc]
    linarith

/-- Witness for C3: the metrics at a concrete empty schema and an empty
job. -/
theorem completeness_in_range_witness :
    dataCompleteness [] = 0 ∧
      (0 : ℚ) ≤ calculate_completeness
        ⟨none, none, none, none, none, none, none, none⟩ :=
  ⟨(completeness_in_range []
      ⟨none, none, none, none, none, none, none, none⟩).2.2.1 rfl,
    (completeness_in_range []
      ⟨none, none, none, none, none, none, none, none⟩).2.2.2.1⟩

/-- C8: `detect_duplicates` partitions its input — every job lands in
exactly one of the unique and duplicate lists, so the lengths sum to the
input length, every returned element originates from the input, and both
lists preserve the relative input order (stated for any state of the two
`seen` sets; the script starts them empty). -/
theorem detect_duplicates_partition (jobs : List CJob)
    (seenUrls seenFuzzy : List String) :
    (detect_duplicates jobs seenUrls seenFuzzy).1.length +
        (detect_duplicates jobs seenUrls seenFuzzy).2.length =
      jobs.length ∧
    (detect_duplicates jobs seenUrls seenFuzzy).1.Sublist jobs ∧
    ((detect_duplicates jobs seenUrls seenFuzzy).2.map DupJob.job).Sublist
      jobs := by
  induction jobs generalizing seenUrls seenFuzzy with
  | nil => simp [detect_duplicates]
  | cons j rest ih =>
    rw [detect_duplicates]
    split
    · obtain ⟨hlen, hu, hd⟩ := ih seenUrls seenFuzzy
      refine ⟨?_, ?_, ?_⟩
      · simp only [List.length_cons]
        omega
      · exact List.Sublist.cons j hu
      · simpa using List.Sublist.cons₂ j hd
    · split
      · obtain ⟨hlen, hu, hd⟩ := ih seenUrls seenFuzzy
        refine ⟨?_, ?_, ?_⟩
        · simp only [List.length_cons]
          omega
        · exact List.Sublist.cons j hu
        · simpa using List.Sublist.cons₂ j hd
      · obtain ⟨hlen, hu, hd⟩ := ih
          (if urlOf j ≠ "" then urlOf j :: seenUrls else seenUrls)
          (if fuzzyKeyOf j ≠ "||" then fuzzyKeyOf j :: seenFuzzy
           else seenFuzzy)
        refine ⟨?_, ?_, ?_⟩
        · simp only [List.length_cons]
          omega
        · exact List.Sublist.cons₂ j hu
        · exact List.Sublist.cons j hd

/-- The generator sum `sum(1 for app in l if app.status == s)` counts the
matching entries. -/
theorem sum_status_count (l : List Application) (s : String) :
    (l.map (fun a => if a.status = s then 1 else 0)).sum =
      (l.filter (fun a => a.status = s)).length := by
  induction l with
  | nil => rfl
  | cons a t ih =>
    by_cases h : a.status = s
    · simp [h, ih, List.filter_cons]
      omega
    · simp [h, ih, List.filter_cons]

/-- C9: after `add_application`, the tracker keeps at most one entry per
job_id (the old entry for the added job_id is dropped before the append)
and the successful/failed/in_progress counters equal the number of
applications with status "completed"/"failed"/"in_progress". -/
theorem add_application_unique_and_counters (t t' : TrackerData)
    (jid c ti st dir ca : String)
    (ht' : t' = add_application t jid c ti st dir ca)
    (h : ∀ id, (t.applications.filter (fun a => a.job_id = id)).length ≤ 1) :
    t'.applications =
      t.applications.filter (fun a => a.job_id ≠ jid) ++
        [⟨jid, c, ti, st, dir, ca⟩] ∧
    (∀ id, (t'.applications.filter (fun a => a.job_id = id)).length ≤ 1) ∧
    t'.successful =
      (t'.applications.filter (fun a => a.status = "completed")).length ∧
    t'.failed =
      (t'.applications.filter (fun a => a.status = "failed")).length ∧
    t'.in_progress =
      (t'.applications.filter (fun a => a.status = "in_progress")).length := by
  subst ht'
  have happ : (add_application t jid c ti st dir ca).applications =
      t.applications.filter (fun a => a.job_id ≠ jid) ++
        [⟨jid, c, ti, st, dir, ca⟩] := rfl
  refine ⟨happ, ?_, ?_, ?_, ?_⟩
  · intro id
    rw [happ, List.filter_append, List.length_append]
    by_cases hid : id = jid
    · rw [hid]
      have h1 : (t.applications.filter (fun a => a.job_id ≠ jid)).filter
          (fun a => a.job_id = jid) = [] := by
        rw [List.filter_eq_nil_iff]
        intro a ha
        rw [List.mem_filter] at ha
        simp only [decide_eq_true_eq] at ha ⊢
        simpa using ha.2
      simp [h1]
    · have h2 : (([⟨jid, c, ti, st, dir, ca⟩] : List Application).filter
          (fun a => a.job_id = id)) = [] := by
        simp [List.filter_cons]
        exact fun hh => hid hh.symm
      have h3 : ((t.applications.filter (fun a => a.job_id ≠ jid)).filter
            (fun a => a.job_id = id)).length ≤
          (t.applications.filter (fun a => a.job_id = id)).length :=
        (List.Sublist.filter _ (List.filter_sublist _)).length_le
      rw [h2]
      simpa using le_trans h3 (h id)
  · simp only [add_application, updateCounters]
    exact sum_status_count _ _
  · simp only [add_application, updateCounters]
    exact sum_status_count _ _
  · simp only [add_application, updateCounters]
    exact sum_status_count _ _

/-- Witness for C9: adding a completed application to a fresh tracker
makes the successful counter match the completed entries. -/
theorem add_application_unique_and_counters_witness :
    (add_application ⟨[], 0, 0, 0⟩ "j1" "Acme" "Dev" "completed" "dir"
        "t1").successful =
      ((add_application ⟨[], 0, 0, 0⟩ "j1" "Acme" "Dev" "completed" "dir"
          "t1").applications.filter
        (fun a => a.status = "completed")).length :=
  (add_application_unique_and_counters ⟨[], 0, 0, 0⟩ _ "j1" "Acme" "Dev"
    "completed" "dir" "t1" rfl (by intro id; simp)).2.2.1

/-- C10: `filter_by_posted_date` keeps a job whenever its posted date is
missing, empty, or unparseable; it excludes a job exactly when the date
parses as an ISO date and is strictly older than the cutoff
(now minus the given number of days). -/
theorem filter_by_posted_date_keeps_unparseable (job : FilterJob)
    (days : Nat) (now : ℚ) :
    filter_by_posted_date job days now = false ↔
      ∃ rj y m d, job.raw = some rj ∧
        dateStrOf rj.postedDate ≠ "" ∧
        parseIsoDate (datePartOf (dateStrOf rj.postedDate)) =
          some (y, m, d) ∧
        (dateOrdinal y m d : ℚ) < now - days := by
  cases hraw : job.raw with
  | none => simp [filter_by_posted_date, hraw]
  | some rj =>
    by_cases h0 : dateStrOf rj.postedDate = ""
    · simp [filter_by_posted_date, hraw, h0]
    · cases hp : parseIsoDate (datePartOf (dateStrOf rj.postedDate)) with
      | none => simp [filter_by_posted_date, hraw, h0, hp]
      | some ymd =>
        obtain ⟨y, m, d⟩ := ymd
        have hred : filter_by_posted_date job days now =
            decide ((dateOrdinal y m d : ℚ) ≥ now - days) := by
          simp [filter_by_posted_date, hraw, h0, hp]
        rw [hred]
        constructor
        · intro hfalse
          refine ⟨rj, y, m, d, rfl, h0, hp, ?_⟩
          exact not_le.mp (of_decide_eq_false hfalse)
        · rintro ⟨rj2, y2, m2, d2, hraw2, h02, hp2, hlt⟩
          injection hraw2 with e
          subst e
          rw [hp] at hp2
          simp only [Option.some.injEq, Prod.mk.injEq] at hp2
          obtain ⟨rfl, rfl, rfl⟩ := hp2
          exact decide_eq_false (fun hge => absurd hlt (not_lt.mpr hge))

end JobHunter
